import Mathlib

/-!
# Verification of the aether-lens orchestration & provisioning core

Shallow embedding of the pipeline controller, test dispatcher, lifecycle
registry, file watcher, browser readiness polling and event emitter of the
aether-lens repository, together with proofs and refutations of the
specification claims about them.

Sources embedded (paths relative to the repository root):
* `src/aether_lens/daemon/controller/execution.py` (ExecutionController)
* `src/aether_lens/core/pipeline.py` (legacy run_pipeline: strategy merge,
  deployment / health-check gating)
* `src/aether_lens/daemon/repository/executor.py` (TestExecutor.execute_test)
* `src/aether_lens/daemon/repository/lifecycle.py` (LifecycleRegistry)
* `src/aether_lens/core/watcher.py` (LensLoopHandler)
* `src/aether_lens/core/browser.py` (CDPBrowserProvider._launch_container)
* `src/aether_lens/core/domain/events.py` (EventEmitter.emit)
-/

namespace AetherLens

/-- A test descriptor as the Python dicts flowing through the pipeline:
`test.get("type")`, `test.get("label")`, `test.get("path")`,
`test.get("command")`, `test.get("execution_env")`.  A missing dict key is
`none`. -/
structure TestDescriptor where
  type : Option String := none
  label : Option String := none
  path : Option String := none
  command : Option String := none
  execution_env : Option String := none
deriving DecidableEq, Repr

/-- The de-duplication key actually built by `core/pipeline.py`:
`(t.get("type"), t.get("label"), t.get("path"), t.get("command"))`. -/
def testKey (t : TestDescriptor) :
    Option String × Option String × Option String × Option String :=
  (t.type, t.label, t.path, t.command)

/-- `test.get("path") or test.get("command")` from
`TestExecutor.execute_test`: Python `or` falls through on `None` and on the
empty string. -/
def pathOrCommand (t : TestDescriptor) : Option String :=
  match t.path with
  | some p => if p.isEmpty then t.command else some p
  | none => t.command

/-- The de-duplication key named by the specification: `(kind, label,
commandOrPath)`, reading `commandOrPath` the way the executor does. -/
def specDedupKey (t : TestDescriptor) :
    Option String × Option String × Option String :=
  (t.type, t.label, pathOrCommand t)

/-! ## Strategy splitting (`strategy.split(",")` with `.strip()`) -/

/-- Split a character list at commas, like Python `str.split(",")`. -/
def splitCommaChars : List Char → List Char → List String
  | [], cur => [String.mk cur.reverse]
  | c :: rest, cur =>
    if c = ',' then String.mk cur.reverse :: splitCommaChars rest []
    else splitCommaChars rest (c :: cur)

/-- Python `str.strip()`: drop leading and trailing whitespace. -/
def stripStr (s : String) : String :=
  String.mk (((s.data.dropWhile Char.isWhitespace).reverse.dropWhile
    Char.isWhitespace).reverse)

/-- `[s.strip() for s in strategy.split(",")]` from `core/pipeline.py`. -/
def splitStrategies (strategy : String) : List String :=
  (splitCommaChars strategy.data []).map stripStr

/-! ## Analysis merge and de-duplication (`core/pipeline.py` 774-808)

```python
for s in strategies:
    for t in analysis.get("recommended_tests", []):
        test_key = (t.get("type"), t.get("label"), t.get("path"), t.get("command"))
        if test_key not in seen_tests:
            all_tests.append(t)
            seen_tests.add(test_key)
# then the same loop over config.get("tests", [])
```
-/

/-- One pass of the merge loop: thread `(seen_tests, all_tests)` through a
list of recommended tests. -/
def addTests :
    (List (Option String × Option String × Option String × Option String) ×
      List TestDescriptor) →
    List TestDescriptor →
    (List (Option String × Option String × Option String × Option String) ×
      List TestDescriptor)
  | st, [] => st
  | (seen, acc), t :: ts =>
    if testKey t ∈ seen then addTests (seen, acc) ts
    else addTests (testKey t :: seen, acc ++ [t]) ts

/-- The merged, de-duplicated test list of the legacy `run_pipeline`:
planner output per strategy label, then explicit config tests, threaded
through the shared `seen_tests` set.  `planner` models the external
`run_analysis` collaborator (a pure function of the strategy label for one
fixed diff/context). -/
def mergedTests (planner : String → List TestDescriptor)
    (configTests : List TestDescriptor) (strategy : String) :
    List TestDescriptor :=
  let strategies := splitStrategies strategy
  let st := strategies.foldl (fun st s => addTests st (planner s)) ([], [])
  (addTests st configTests).2

/-- All candidate descriptors in processing order, before de-duplication. -/
def allCandidates (planner : String → List TestDescriptor)
    (configTests : List TestDescriptor) (strategy : String) :
    List TestDescriptor :=
  ((splitStrategies strategy).map planner).flatten ++ configTests

/-! ## Execution environments and the test dispatcher
(`daemon/repository/environments.py`, `daemon/repository/executor.py`) -/

/-- The three runtime-environment variants selected by
`ExecutionController.run_pipeline` from `config.get("execution_env")`. -/
inductive EnvKind where
  | localEnv
  | dockerEnv
  | k8sEnv
deriving DecidableEq, Repr

/-- Environment resolution in `TestExecutor.execute_test`:
```python
env = self.environment
if test.get("execution_env") == "local" and not isinstance(env, LocalEnvironment):
    env = LocalEnvironment()
```
A descriptor demanding `"local"` always runs locally; otherwise the
pipeline's environment is used. -/
def resolveEnv (pipelineEnv : EnvKind) (t : TestDescriptor) : EnvKind :=
  if t.execution_env = some "local" then .localEnv else pipelineEnv

/-- The `(success, output, artifact)` triple returned by
`RuntimeEnvironment.run_command` and `run_visual_test`.  Every
`run_command` implementation wraps its body in `try/except` and returns a
triple, so outcomes are total values, never exceptions. -/
structure ExecOutcome where
  success : Bool
  output : Option String
  artifact : Option String
deriving DecidableEq, Repr

/-- The result dict returned by `TestExecutor.execute_test`. -/
structure ExecutionResult where
  type : String
  label : Option String
  status : String
  error : Option String
  artifact : Option String
  strategy : String
deriving DecidableEq, Repr

/-- `TestExecutor.execute_test` (event emission elided; it returns the
result dict).  `runCmd` models `env.run_command` of the resolved
environment, `runVisual` the visual-test runner; both are supplied by the
run.  A descriptor of any other type keeps the initial
`success, output, artifact = False, None, None`. -/
def executeTest (pipelineEnv : EnvKind)
    (runCmd : EnvKind → Option String → ExecOutcome)
    (runVisual : Option String → ExecOutcome)
    (strategy : String) (t : TestDescriptor) : ExecutionResult :=
  let ttype := t.type.getD "command"
  let pc := pathOrCommand t
  let outcome :=
    if ttype = "command" then runCmd (resolveEnv pipelineEnv t) pc
    else if ttype = "visual" then runVisual pc
    else ⟨false, none, none⟩
  { type := ttype
    label := t.label
    status := if outcome.success then "PASSED" else "FAILED"
    error := if outcome.success then none else outcome.output
    artifact := outcome.artifact
    strategy := strategy }

/-- `ExecutionController._execute_tests` core:
```python
tasks = [executor.execute_test(t, strategy, app_url) for t in tests]
results = await asyncio.gather(*tasks)
```
`asyncio.gather` awaits every task and returns the results in task order;
a test that fails returns a `FAILED` result dict instead of raising, so no
sibling is cancelled and no result is omitted. -/
def executeTests (pipelineEnv : EnvKind)
    (runCmd : EnvKind → Option String → ExecOutcome)
    (runVisual : Option String → ExecOutcome)
    (strategy : String) : List TestDescriptor → List ExecutionResult
  | [] => []
  | t :: ts =>
    executeTest pipelineEnv runCmd runVisual strategy t ::
      executeTests pipelineEnv runCmd runVisual strategy ts

/-! ## Controller phases 2-3: analysis fallback and quality guard
(`daemon/controller/execution.py` 517-562) -/

/-- The fallback audit test substituted by `ExecutionController.run_pipeline`
when the planner recommends nothing. -/
def fallbackTest : TestDescriptor :=
  { type := some "command"
    label := some "Home Layout Check (Fallback)"
    command := some "python3 -m aether_lens.core.runner layout_check"
    execution_env := some "local" }

/-- `all_tests` after the analysis phase: `if not all_tests: all_tests = [fallback]`. -/
def analysisTests (recommended : List TestDescriptor) : List TestDescriptor :=
  if recommended.isEmpty then [fallbackTest] else recommended

/-- `config.get("quality_checks", {"enabled": True, "providers": ["ruff"]})`. -/
structure QualityConf where
  enabled : Bool
  providers : List String
deriving DecidableEq, Repr

/-- The ruff quality-guard descriptor built by the controller. -/
def ruffTest : TestDescriptor :=
  { type := some "command"
    label := some "Quality Guard (Ruff)"
    command := some "ruff check . && ruff format --check ."
    execution_env := some "local" }

/-- The sonarqube quality-guard descriptor built by the controller. -/
def sonarTest : TestDescriptor :=
  { type := some "command"
    label := some "Quality Guard (SonarQube)"
    command := some "sonar-scanner"
    execution_env := some "local" }

/-- The provider dispatch of the quality-guard loop: only the literal
provider names `"ruff"` and `"sonarqube"` produce a descriptor; any other
provider label contributes nothing. -/
def providerTest (provider : String) : Option TestDescriptor :=
  if provider = "ruff" then some ruffTest
  else if provider = "sonarqube" then some sonarTest
  else none

/-- The `quality_tests` list accumulated over `quality_conf.get("providers", [])`. -/
def qualityTests (providers : List String) : List TestDescriptor :=
  providers.filterMap providerTest

/-- Phases 2-3 of `ExecutionController.run_pipeline`: analysis fallback then
quality-guard prepend.  `qcOpt = none` models a config without a
`quality_checks` key, in which case the code default
`{"enabled": True, "providers": ["ruff"]}` applies.  The returned list is
what the Execution phase receives. -/
def phase23 (qcOpt : Option QualityConf) (recommended : List TestDescriptor) :
    List TestDescriptor :=
  let allTests := analysisTests recommended
  let qc := qcOpt.getD ⟨true, ["ruff"]⟩
  if qc.enabled then qualityTests qc.providers ++ allTests else allTests

/-! ## Lifecycle registry (`daemon/repository/lifecycle.py`)

The registry is a mutex-guarded dict `target_dir -> [handle]`; registration
and teardown run under the lock, so their effect is modelled as sequential
state transformation. -/

/-- A duck-typed background resource handle, recording which teardown
methods it exposes (`hasattr` checks in `LifecycleRegistry.stop`) and
whether invoking its teardown raises. -/
structure Handle where
  id : Nat
  hasStop : Bool
  hasJoin : Bool
  hasTerminate : Bool
  teardownRaises : Bool
deriving DecidableEq, Repr

/-- Which call `LifecycleRegistry.stop` performs on one handle. -/
inductive TeardownAction where
  | stopJoin
  | terminated
  | skipped
deriving DecidableEq, Repr

/-- The per-handle teardown record: the branch taken by
```python
if hasattr(handle, "stop") and hasattr(handle, "join"):
    handle.stop(); handle.join()
elif hasattr(handle, "terminate"):
    handle.terminate()
```
plus whether the swallowed `try/except Exception` caught an error. -/
structure TeardownRecord where
  id : Nat
  action : TeardownAction
  raised : Bool
deriving DecidableEq, Repr

/-- Teardown of one handle, errors swallowed by the per-handle `try`. -/
def teardownRecord (h : Handle) : TeardownRecord :=
  let action : TeardownAction :=
    if h.hasStop && h.hasJoin then .stopJoin
    else if h.hasTerminate then .terminated
    else .skipped
  { id := h.id
    action := action
    raised := h.teardownRaises && action != .skipped }

/-- The registry dict `self._active_resources`, keyed by target directory. -/
def Registry := List (String × List Handle)

/-- Dict lookup: `self._active_resources[target_dir]` when present. -/
def regLookup : Registry → String → Option (List Handle)
  | [], _ => none
  | (k, hs) :: rest, d => if k = d then some hs else regLookup rest d

/-- `LifecycleRegistry.register`: create the key with `[]` if absent, then
append the handle. -/
def regRegister : Registry → String → Handle → Registry
  | [], d, h => [(d, [h])]
  | (k, hs) :: rest, d, h =>
    if k = d then (k, hs ++ [h]) :: rest
    else (k, hs) :: regRegister rest d h

/-- `self._active_resources.pop(target_dir)`: drop the key. -/
def regRemove (reg : Registry) (d : String) : Registry :=
  reg.filter (fun p => p.1 != d)

/-- `LifecycleRegistry.stop`: if the key is present, tear down every handle
for it (swallowing per-handle errors), remove the key and return `True`;
otherwise return `False`.  The returned record list is the sequence of
teardown calls performed. -/
def regStop (reg : Registry) (d : String) :
    Bool × List TeardownRecord × Registry :=
  match regLookup reg d with
  | some hs => (true, hs.map teardownRecord, regRemove reg d)
  | none => (false, [], reg)

/-! ## Controller run skeleton (`daemon/controller/execution.py` 394-593) -/

/-- Outcome of the `try` body of `ExecutionController.run_pipeline`: a
normal return with results, or a raised / cancelled run. -/
inductive BodyOutcome where
  | ok (results : List ExecutionResult)
  | raised
deriving DecidableEq, Repr

/-- The `try/finally` shape of `ExecutionController.run_pipeline`: the body
runs (registering background services into the registry as it goes), and
the `finally` block runs unconditionally; for `context == "cli"` it calls
`self.stop_dev_loop(target_dir)`, i.e. `lifecycle_registry.stop`, before
the value is returned or the exception propagates.  The result carries the
body outcome, the teardown records performed by the `finally` block, and
the final registry. -/
def runPipelineFin (contextCli : Bool) (dir : String)
    (body : Registry → BodyOutcome × Registry) (reg : Registry) :
    (BodyOutcome × List TeardownRecord) × Registry :=
  let r := body reg
  if contextCli then
    let s := regStop r.2 dir
    ((r.1, s.2.1), s.2.2)
  else ((r.1, []), r.2)

/-- `deploy_conf = config.get("deployment", {}).get(browser_strategy)`:
the per-environment deployment record. -/
structure DeployConf where
  command : Option String
  health_check : Option String
deriving DecidableEq, Repr

/-- Where a controller run stops, following the `return` statements of
`ExecutionController.run_pipeline` in order. -/
inductive CtrlOutcome where
  | abortedServices
  | abortedDeploy
  | abortedHealth
  | abortedNoChanges
  | executed (tests : List TestDescriptor)
deriving DecidableEq, Repr

/-- The control-flow skeleton of `ExecutionController.run_pipeline` up to
the Execution phase.  `servicesOk` is the result of `ensure_services`,
`deployOk` of `run_deployment_hook`, `healthOk` of
`wait_for_health_check`; each gate `return`s (aborts) on failure before
any test is attempted.  On the success path the Execution phase receives
`phase23 qcOpt recommended`. -/
def controllerRun (servicesOk : Bool) (deployConf : Option DeployConf)
    (deployOk healthOk : Bool) (contextCli : Bool) (diff : String)
    (qcOpt : Option QualityConf) (recommended : List TestDescriptor) :
    CtrlOutcome :=
  if !servicesOk then .abortedServices
  else
    let deployGate : Option CtrlOutcome :=
      match deployConf with
      | none => none
      | some dc =>
        if dc.command.isSome && !deployOk then some .abortedDeploy
        else if dc.health_check.isSome && !healthOk then some .abortedHealth
        else none
    match deployGate with
    | some o => o
    | none =>
      if !contextCli && diff = "" then .abortedNoChanges
      else .executed (phase23 qcOpt recommended)

/-! ## Legacy pipeline gating (`core/pipeline.py` 753-814) -/

/-- Where a legacy `run_pipeline` run stops before its execution stage. -/
inductive LegacyOutcome where
  | abortedDeploy
  | abortedNoChanges
  | abortedNoTests
  | executed (tests : List TestDescriptor)
deriving DecidableEq, Repr

/-- The gating skeleton of the legacy `core/pipeline.py` `run_pipeline`:
a failing deployment hook aborts, but a failing health check only prints
`"Warning: Application might not be ready."` and the run continues; an
empty diff or an empty merged test list returns early.  `merged` is the
merged analysis/config test list. -/
def legacyRun (deployCmd : Option String) (deployOk : Bool)
    (healthUrl : Option String) (healthOk : Bool) (diff : String)
    (merged : List TestDescriptor) : LegacyOutcome :=
  if deployCmd.isSome && !deployOk then .abortedDeploy
  else
    -- `if health_url and deploy_cmd: wait_for_health_check(...)` --
    -- the boolean result is not consulted, healthOk does not gate the run
    let _ := healthUrl
    let _ := healthOk
    if diff = "" then .abortedNoChanges
    else if merged.isEmpty then .abortedNoTests
    else .executed merged

/-! ## Debounced file watcher (`core/watcher.py`) -/

/-- Substring containment of `pat` in `s` over the character lists, the
model of Python `pat in path`. -/
def startsWithChars : List Char → List Char → Bool
  | [], _ => true
  | _ :: _, [] => false
  | a :: as, b :: bs => a = b && startsWithChars as bs

/-- `pat in s` for strings (substring test). -/
def containsChars : List Char → List Char → Bool
  | [], pat => pat.isEmpty
  | s@(_ :: rest), pat => startsWithChars pat s || containsChars rest pat

/-- Python `pat in s` on `String`s. -/
def strContainsSub (s pat : String) : Bool :=
  containsChars s.data pat.data

/-- The ignore list of `LensLoopHandler._process`. -/
def ignoreList : List String := [".git", "node_modules", ".astro", "__pycache__"]

/-- `any(x in event.src_path for x in [...])`. -/
def ignoreHit (path : String) : Bool :=
  ignoreList.any (fun pat => strContainsSub path pat)

/-- The event types `on_any_event` lets through. -/
def allowedEventTypes : List String := ["created", "modified", "deleted", "moved"]

/-- A raw watchdog file-system event. -/
structure FsEvent where
  src_path : String
  is_directory : Bool
  event_type : String
deriving DecidableEq, Repr

/-- The mutable state of `LensLoopHandler`: `self.last_triggered`
(`debounce_seconds` is the constant 2). -/
structure HandlerState where
  last_triggered : ℚ
deriving DecidableEq, Repr

/-- `self.debounce_seconds = 2`. -/
def debounceSeconds : ℚ := 2

/-- `LensLoopHandler._process`: ignore-list filter, then trigger the
callback and reset the timer when strictly more than the debounce window
has elapsed.  Returns whether the callback was invoked (exactly once in
that case) and the new state; `now` is `time.time()`. -/
def processEvent (st : HandlerState) (now : ℚ) (e : FsEvent) :
    Bool × HandlerState :=
  if e.is_directory then (false, st)
  else if ignoreHit e.src_path then (false, st)
  else if now - st.last_triggered > debounceSeconds then (true, ⟨now⟩)
  else (false, st)

/-- `LensLoopHandler.on_any_event`: discard directory events and events
whose type is not created/modified/deleted/moved, then `_process`. -/
def onAnyEvent (st : HandlerState) (now : ℚ) (e : FsEvent) :
    Bool × HandlerState :=
  if e.is_directory then (false, st)
  else if e.event_type ∈ allowedEventTypes then processEvent st now e
  else (false, st)

/-! ## Browser-container readiness polling
(`core/browser.py`, `CDPBrowserProvider._launch_container`) -/

/-- One probe of `httpx.get(url)`: HTTP 200, a raised connection error, or
a non-200 response. -/
inductive ProbeResult where
  | ok
  | connError
  | badStatus
deriving DecidableEq, Repr

/-- How the readiness loop ends: probe success at some attempt number, the
`RuntimeError` raised when the container stopped running (fail fast), the
`RuntimeError` raised after the 60s ceiling, or exhausted modelling fuel. -/
inductive PollResult where
  | ready (attempt : Nat)
  | containerDied (attempt : Nat)
  | timedOut
  | fuelOut
deriving DecidableEq, Repr

/-- `max_wait = 60`. -/
def maxWait : ℚ := 60

/-- The polling loop of `_launch_container`:
```python
delay = 0.5
while time.time() - start_time < max_wait:
    container.reload()
    if container.status != "running": raise RuntimeError(...)
    attempt += 1
    try:
        response = httpx.get(url, timeout=2.0)
        if response.status_code == 200: ready = True; break
    except Exception:
        time.sleep(delay)
        delay = min(delay * 1.5, 5.0)
if not ready: raise RuntimeError(...)
```
`elapsed` accounts the backoff sleeps (the dominant waiting); `running n`
is the container status seen at the start of the iteration making attempt
`n+1`, `probe n` the probe result of attempt `n`.  `fuel` only bounds the
model's recursion. -/
def pollLoop (running : Nat → Bool) (probe : Nat → ProbeResult) :
    Nat → ℚ → ℚ → Nat → PollResult
  | 0, _, _, _ => .fuelOut
  | fuel + 1, elapsed, delay, attempt =>
    if elapsed < maxWait then
      if !running attempt then .containerDied attempt
      else
        match probe (attempt + 1) with
        | .ok => .ready (attempt + 1)
        | .connError =>
          pollLoop running probe fuel (elapsed + delay)
            (min (delay * (3 / 2)) 5) (attempt + 1)
        | .badStatus => pollLoop running probe fuel elapsed delay (attempt + 1)
    else .timedOut

/-- The backoff delay before the `n`-th retry sleep: `0.5`, then
`min(delay * 1.5, 5.0)` after each failed attempt. -/
def backoffDelay : Nat → ℚ
  | 0 => 1 / 2
  | n + 1 => min (backoffDelay n * (3 / 2)) 5

/-- A probe that raises a connection error on attempts 1 and 2 and returns
HTTP 200 on attempt 3. -/
def probeThird (n : Nat) : ProbeResult :=
  if n < 3 then .connError else .ok

/-! ## Event emitter (`core/domain/events.py`, `EventEmitter.emit`) -/

/-- `asyncio.get_running_loop()`: returns the loop or raises
`RuntimeError` when no loop runs in the calling thread. -/
def getRunningLoop (loopRunning : Bool) : Except Unit Unit :=
  if loopRunning then .ok () else .error ()

/-- `EventEmitter.emit`: for each transport, `try` to fetch the running
loop and schedule `transport.emit(event)` as an independent task; the
`except RuntimeError: pass` swallows the failure, dropping the event for
that transport.  The function returns the list of scheduled (not yet
executed) deliveries; it never raises and performs no delivery itself. -/
def emitFan {τ ε : Type} (loopRunning : Bool) (event : ε) :
    List τ → List (τ × ε)
  | [] => []
  | t :: ts =>
    match getRunningLoop loopRunning with
    | .ok _ => (t, event) :: emitFan loopRunning event ts
    | .error _ => emitFan loopRunning event ts

/-! ## Concrete fixtures used by counterexamples and witnesses -/

/-- An analysis-derived visual test descriptor. -/
def visualHomeTest : TestDescriptor :=
  { type := some "visual", label := some "Visual Home", path := some "/" }

/-- A planner-produced command test descriptor. -/
def sampleTest : TestDescriptor :=
  { type := some "command", label := some "Smoke", command := some "make test" }

/-- A descriptor whose dict carries its target in the `path` key. -/
def dupPathTest : TestDescriptor :=
  { type := some "command", label := some "L", path := some "x" }

/-- A descriptor carrying the same target in the `command` key instead. -/
def dupCmdTest : TestDescriptor :=
  { type := some "command", label := some "L", command := some "x" }

/-- A planner returning, for strategy `"a"`, two descriptors that agree on
`(kind, label, commandOrPath)` but use different dict keys. -/
def dupPlanner (s : String) : List TestDescriptor :=
  if s = "a" then [dupPathTest, dupCmdTest] else []

/-- A non-directory file modification event on a non-ignored path. -/
def modEvent : FsEvent :=
  ⟨"src/main.py", false, "modified"⟩

/-- A stub background-service handle exposing `stop` and `join`
(a watchdog-Observer-style resource). -/
def stubHandle : Handle :=
  ⟨1, true, true, false, false⟩

/-- A pipeline body that registers a background service for the target
directory during Preparation and then raises in a later phase. -/
def raisingBody (reg : Registry) : BodyOutcome × Registry :=
  (.raised, regRegister reg "/proj" stubHandle)

/-! ## Registry lemmas -/

theorem regLookup_register_self (reg : Registry) (d : String) (h : Handle) :
    regLookup (regRegister reg d h) d = some ((regLookup reg d).getD [] ++ [h]) := by
  induction reg with
  | nil => simp [regRegister, regLookup]
  | cons p rest ih =>
    obtain ⟨k, hs⟩ := p
    by_cases hk : k = d
    · subst hk
      simp [regRegister, regLookup]
    · simp [regRegister, regLookup, hk, ih]

theorem regLookup_remove (reg : Registry) (d : String) :
    regLookup (regRemove reg d) d = none := by
  induction reg with
  | nil => simp [regRemove, regLookup]
  | cons p rest ih =>
    obtain ⟨k, hs⟩ := p
    by_cases hk : k = d
    · subst hk
      simpa [regRemove, regLookup] using ih
    · simpa [regRemove, regLookup, hk] using ih

/-! ## Claim theorems -/

/-- Claim C10: `EventEmitter.emit` never raises and never blocks: with a
running loop each transport's delivery is scheduled as an independent
task (one per transport, in registration order, none executed
synchronously) and with no running loop the event is dropped, delivered
to zero transports.  `emitFan` is a total function — the per-transport
`except RuntimeError: pass` is the only handler it needs. -/
theorem c10_emit_fanout {τ ε : Type} (event : ε) (transports : List τ) :
    emitFan true event transports = transports.map (fun t => (t, event)) ∧
    emitFan false event transports = [] := by
  constructor
  · induction transports with
    | nil => rfl
    | cons t ts ih => simp [emitFan, getRunningLoop, ih]
  · induction transports with
    | nil => rfl
    | cons t ts ih => simpa [emitFan, getRunningLoop] using ih

/-- Claim C2: for every list of N descriptors, Execution produces exactly
N results; the i-th result matches the i-th descriptor (same type, with
the `"command"` dict default, and same label); and the result of any one
test is computed independently of its siblings — a failing test in the
middle neither cancels nor omits the others. -/
theorem c2_execution_results (pipelineEnv : EnvKind)
    (runCmd : EnvKind → Option String → ExecOutcome)
    (runVisual : Option String → ExecOutcome) (strategy : String)
    (tests ts1 ts2 : List TestDescriptor) (t : TestDescriptor) :
    (executeTests pipelineEnv runCmd runVisual strategy tests).length =
      tests.length ∧
    (executeTests pipelineEnv runCmd runVisual strategy tests).map
        (fun r => (r.type, r.label)) =
      tests.map (fun u => (u.type.getD "command", u.label)) ∧
    executeTests pipelineEnv runCmd runVisual strategy (ts1 ++ t :: ts2) =
      executeTests pipelineEnv runCmd runVisual strategy ts1 ++
        executeTest pipelineEnv runCmd runVisual strategy t ::
          executeTests pipelineEnv runCmd runVisual strategy ts2 := by
  refine ⟨?_, ?_, ?_⟩
  · induction tests with
    | nil => rfl
    | cons u us ih => simp [executeTests, ih]
  · induction tests with
    | nil => rfl
    | cons u us ih => simp [executeTests, executeTest, ih]
  · induction ts1 with
    | nil => rfl
    | cons u us ih => simp [executeTests, ih]

/-- Claim C6: `register(d, h1); register(d, h2)` keeps every previously
registered handle and appends both (registering never clears); `stop(d)`
then performs a teardown call on every handle for the key in order —
including `h1` and `h2`, each via stop+join or terminate when the handle
exposes one of them — swallowing per-handle errors (the record list covers
all handles regardless of any handle's `teardownRaises`), removes the key
and returns true; a second `stop(d)` returns false. -/
theorem c6_registry_register_stop (reg : Registry) (d : String)
    (h1 h2 : Handle)
    (hc1 : ((h1.hasStop && h1.hasJoin) || h1.hasTerminate) = true)
    (hc2 : ((h2.hasStop && h2.hasJoin) || h2.hasTerminate) = true) :
    regLookup (regRegister (regRegister reg d h1) d h2) d =
      some ((regLookup reg d).getD [] ++ [h1, h2]) ∧
    (regStop (regRegister (regRegister reg d h1) d h2) d).1 = true ∧
    (regStop (regRegister (regRegister reg d h1) d h2) d).2.1 =
      ((regLookup reg d).getD [] ++ [h1, h2]).map teardownRecord ∧
    teardownRecord h1 ∈ (regStop (regRegister (regRegister reg d h1) d h2) d).2.1 ∧
    teardownRecord h2 ∈ (regStop (regRegister (regRegister reg d h1) d h2) d).2.1 ∧
    (teardownRecord h1).action ≠ TeardownAction.skipped ∧
    (teardownRecord h2).action ≠ TeardownAction.skipped ∧
    regLookup (regStop (regRegister (regRegister reg d h1) d h2) d).2.2 d = none ∧
    (regStop (regStop (regRegister (regRegister reg d h1) d h2) d).2.2 d).1 = false := by
  have hlook : regLookup (regRegister (regRegister reg d h1) d h2) d =
      some ((regLookup reg d).getD [] ++ [h1, h2]) := by
    rw [regLookup_register_self, regLookup_register_self]
    simp
  have hstop : regStop (regRegister (regRegister reg d h1) d h2) d =
      (true, ((regLookup reg d).getD [] ++ [h1, h2]).map teardownRecord,
        regRemove (regRegister (regRegister reg d h1) d h2) d) := by
    rw [regStop, hlook]
  have hrem : regLookup (regStop (regRegister (regRegister reg d h1) d h2) d).2.2 d
      = none := by
    rw [hstop]
    exact regLookup_remove _ d
  have hact1 : (teardownRecord h1).action ≠ TeardownAction.skipped := by
    rcases h1 with ⟨i, s, j, t, r⟩
    cases s <;> cases j <;> cases t <;> simp_all [teardownRecord]
  have hact2 : (teardownRecord h2).action ≠ TeardownAction.skipped := by
    rcases h2 with ⟨i, s, j, t, r⟩
    cases s <;> cases j <;> cases t <;> simp_all [teardownRecord]
  refine ⟨hlook, by rw [hstop], by rw [hstop], ?_, ?_, hact1, hact2, hrem, ?_⟩
  · rw [hstop]
    simp
  · rw [hstop]
    simp
  · rw [regStop, hrem]

/-- Claim C1: for a one-shot run (`context == "cli"`), the `finally` block
runs whether the pipeline body returned normally or raised/was cancelled:
the body outcome is preserved (a raised error still propagates), every
handle registered for the target directory during the run has its
teardown invoked before the run returns, and the registry entry for the
directory is drained. -/
theorem c1_cli_cleanup_guarantee (dir : String)
    (body : Registry → BodyOutcome × Registry) (reg reg' : Registry)
    (out : BodyOutcome) (hbody : body reg = (out, reg')) :
    (runPipelineFin true dir body reg).1.1 = out ∧
    (runPipelineFin true dir body reg).1.2 =
      ((regLookup reg' dir).getD []).map teardownRecord ∧
    (∀ h ∈ (regLookup reg' dir).getD [],
      teardownRecord h ∈ (runPipelineFin true dir body reg).1.2) ∧
    regLookup (runPipelineFin true dir body reg).2 dir = none := by
  have hrun : runPipelineFin true dir body reg =
      ((out, (regStop reg' dir).2.1), (regStop reg' dir).2.2) := by
    simp [runPipelineFin, hbody]
  cases hl : regLookup reg' dir with
  | none =>
    have hstop : regStop reg' dir = (false, [], reg') := by rw [regStop, hl]
    refine ⟨by rw [hrun], ?_, ?_, ?_⟩
    · rw [hrun, hstop]
      simp
    · intro h hmem
      simp at hmem
    · rw [hrun, hstop]
      exact hl
  | some hs =>
    have hstop : regStop reg' dir = (true, hs.map teardownRecord, regRemove reg' dir) := by
      rw [regStop, hl]
    refine ⟨by rw [hrun], ?_, ?_, ?_⟩
    · rw [hrun, hstop]
      simp
    · intro h hmem
      rw [hrun, hstop]
      simp only [Option.getD_some] at hmem
      simpa using List.mem_map_of_mem teardownRecord hmem
    · rw [hrun, hstop]
      exact regLookup_remove reg' dir

/-- Witness for C1: a run whose body registers a stub background handle
for `"/proj"` and then raises still produces the stub's stop+join
teardown record, and the error is what propagates. -/
theorem c1_cli_cleanup_guarantee_witness :
    (runPipelineFin true "/proj" raisingBody []).1.1 = BodyOutcome.raised ∧
    teardownRecord stubHandle ∈ (runPipelineFin true "/proj" raisingBody []).1.2 := by
  have h := c1_cli_cleanup_guarantee "/proj" raisingBody []
    (regRegister [] "/proj" stubHandle) BodyOutcome.raised rfl
  refine ⟨h.1, h.2.2.1 stubHandle ?_⟩
  simp [regRegister, regLookup]

/-- Witness for C6: two concrete handles — one exposing stop+join, one
exposing terminate with a raising teardown — registered for the same
directory: stop tears both down (the raising one does not block the
other), and the second stop finds nothing. -/
theorem c6_registry_register_stop_witness :
    teardownRecord stubHandle ∈
      (regStop (regRegister (regRegister [] "/proj" stubHandle) "/proj"
        ⟨2, false, false, true, true⟩) "/proj").2.1 ∧
    teardownRecord ⟨2, false, false, true, true⟩ ∈
      (regStop (regRegister (regRegister [] "/proj" stubHandle) "/proj"
        ⟨2, false, false, true, true⟩) "/proj").2.1 ∧
    (regStop (regStop (regRegister (regRegister [] "/proj" stubHandle) "/proj"
      ⟨2, false, false, true, true⟩) "/proj").2.2 "/proj").1 = false := by
  have h := c6_registry_register_stop [] "/proj" stubHandle
    ⟨2, false, false, true, true⟩ (by decide) (by decide)
  exact ⟨h.2.2.2.1, h.2.2.2.2.1, h.2.2.2.2.2.2.2.2⟩

/-- Counterexample to claim C3: with a config that has no `quality_checks`
key (the code default enables the ruff guard) and a planner recommending
nothing, the Execution phase receives two descriptors, not exactly one. -/
theorem c3_counterexample :
    (phase23 none []).length = 2 ∧ (phase23 none []).length ≠ 1 := by
  decide

/-- Claim C3 (amended): if the planner returns an empty list, the single
fallback audit test is substituted as the whole analysis result, the
Execution phase receives it right after whatever quality-guard
descriptors are prepended, and no run ever reaches Execution with zero
tests. -/
theorem c3_fallback_substitution :
    analysisTests [] = [fallbackTest] ∧
    (∀ qcOpt : Option QualityConf,
      phase23 qcOpt [] =
        (if (qcOpt.getD ⟨true, ["ruff"]⟩).enabled then
          qualityTests (qcOpt.getD ⟨true, ["ruff"]⟩).providers
        else []) ++ [fallbackTest]) ∧
    (∀ (qcOpt : Option QualityConf) (recommended : List TestDescriptor),
      1 ≤ (phase23 qcOpt recommended).length) := by
  refine ⟨rfl, ?_, ?_⟩
  · intro qcOpt
    by_cases he : (qcOpt.getD ⟨true, ["ruff"]⟩).enabled
    · simp [phase23, he, analysisTests]
    · simp [phase23, he, analysisTests]
  · intro qcOpt recommended
    have hne : analysisTests recommended ≠ [] := by
      cases recommended with
      | nil => simp [analysisTests]
      | cons t ts => simp [analysisTests]
    have h1 : 1 ≤ (analysisTests recommended).length :=
      List.length_pos.mpr hne
    by_cases he : (qcOpt.getD ⟨true, ["ruff"]⟩).enabled
    · simp only [phase23, he, if_true, List.length_append]
      omega
    · simpa [phase23, he] using h1

/-- Counterexample to claim C4: the quality-guard loop recognizes only the
provider strings `"ruff"` and `"sonarqube"`; with providers
`["static-lint"]` and one analysis-derived visual test the Execution phase
receives exactly one descriptor, not two, and no static-lint check is
prepended. -/
theorem c4_counterexample :
    phase23 (some ⟨true, ["static-lint"]⟩) [visualHomeTest] = [visualHomeTest] ∧
    (phase23 (some ⟨true, ["static-lint"]⟩) [visualHomeTest]).length ≠ 2 := by
  decide

/-- Claim C4 (amended): when quality checks are enabled, the descriptors of
the recognized providers are prepended ahead of the analysis-derived
tests; every provider descriptor carries `execution_env = "local"` and is
therefore forced to the Local environment whatever the pipeline default
is; with the recognized provider `["ruff"]` and one analysis-derived
visual test, Execution receives exactly 2 descriptors, the ruff check
first. -/
theorem c4_quality_guard_prepends :
    (∀ (qc : QualityConf) (recommended : List TestDescriptor),
      qc.enabled = true →
      phase23 (some qc) recommended =
        qualityTests qc.providers ++ analysisTests recommended) ∧
    (∀ (p : String) (t : TestDescriptor), providerTest p = some t →
      t.execution_env = some "local" ∧
      ∀ pipelineEnv : EnvKind, resolveEnv pipelineEnv t = .localEnv) ∧
    phase23 (some ⟨true, ["ruff"]⟩) [visualHomeTest] = [ruffTest, visualHomeTest] ∧
    (phase23 (some ⟨true, ["ruff"]⟩) [visualHomeTest]).length = 2 := by
  refine ⟨?_, ?_, by decide, by decide⟩
  · intro qc recommended he
    simp [phase23, he]
  · intro p t hpt
    rw [providerTest] at hpt
    by_cases hr : p = "ruff"
    · rw [if_pos hr] at hpt
      cases hpt
      exact ⟨rfl, fun pipelineEnv => by simp [resolveEnv, ruffTest]⟩
    · rw [if_neg hr] at hpt
      by_cases hs : p = "sonarqube"
      · rw [if_pos hs] at hpt
        cases hpt
        exact ⟨rfl, fun pipelineEnv => by simp [resolveEnv, sonarTest]⟩
      · rw [if_neg hs] at hpt
        cases hpt

/-- Witness for C4 (amended): the general clauses at the concrete scenario
inputs — quality conf `⟨true, ["ruff"]⟩` with the visual test, and the
ruff provider descriptor. -/
theorem c4_quality_guard_prepends_witness :
    phase23 (some ⟨true, ["ruff"]⟩) [visualHomeTest] =
      qualityTests ["ruff"] ++ analysisTests [visualHomeTest] ∧
    ruffTest.execution_env = some "local" ∧
    resolveEnv EnvKind.dockerEnv ruffTest = EnvKind.localEnv := by
  have h := c4_quality_guard_prepends
  have hgen := h.1 ⟨true, ["ruff"]⟩ [visualHomeTest] rfl
  have hruff := h.2.1 "ruff" ruffTest rfl
  exact ⟨hgen, hruff.1, hruff.2 EnvKind.dockerEnv⟩

/-- Counterexample to claim C5: in the legacy `core/pipeline.py`
`run_pipeline`, a configured deployment with a health-check URL that
never returns success does NOT abort the run — the code only prints
"Warning: Application might not be ready." and Execution still attempts
every merged test. -/
theorem c5_counterexample :
    legacyRun (some "./deploy.sh") true (some "http://localhost:8080/health")
      false "some-diff" [sampleTest] = .executed [sampleTest] := by
  decide

/-- Claim C5 (amended): in `ExecutionController.run_pipeline`, any
Preparation failure — service bring-up, deployment hook, or a configured
deployment health check timing out — aborts the run before the Execution
phase and no tests are attempted; in the legacy `core/pipeline.py`
pipeline, a deployment-hook failure does abort, but a health-check
timeout is only a warning: with a non-empty diff and a non-empty merged
test list the run continues to Execution regardless of the health-check
result. -/
theorem c5_preparation_gating :
    (∀ (sOk : Bool) (dc : DeployConf) (dOk cCli : Bool) (diff : String)
      (qcOpt : Option QualityConf) (recommended : List TestDescriptor)
      (u : String), dc.health_check = some u →
      ∀ ts, controllerRun sOk (some dc) dOk false cCli diff qcOpt recommended ≠
        .executed ts) ∧
    (∀ (deployConf : Option DeployConf) (dOk hOk cCli : Bool) (diff : String)
      (qcOpt : Option QualityConf) (recommended : List TestDescriptor),
      ∀ ts, controllerRun false deployConf dOk hOk cCli diff qcOpt recommended ≠
        .executed ts) ∧
    (∀ (sOk : Bool) (dc : DeployConf) (hOk cCli : Bool) (diff : String)
      (qcOpt : Option QualityConf) (recommended : List TestDescriptor)
      (c : String), dc.command = some c →
      ∀ ts, controllerRun sOk (some dc) false hOk cCli diff qcOpt recommended ≠
        .executed ts) ∧
    (∀ (cmd : Option String) (hUrl : Option String) (hOk : Bool)
      (diff : String) (merged : List TestDescriptor) (c : String),
      cmd = some c → legacyRun cmd false hUrl hOk diff merged = .abortedDeploy) ∧
    (∀ (cmd : Option String) (hUrl : Option String) (hOk : Bool)
      (diff : String) (merged : List TestDescriptor),
      diff ≠ "" → merged ≠ [] →
      legacyRun cmd true hUrl hOk diff merged = .executed merged) := by
  refine ⟨?_, ?_, ?_, ?_, ?_⟩
  · intro sOk dc dOk cCli diff qcOpt recommended u hu ts
    cases sOk with
    | false => simp [controllerRun]
    | true =>
      simp only [controllerRun, Bool.not_true, Bool.false_eq_true, if_false]
      by_cases hcd : dc.command.isSome && !dOk
      · simp [hcd]
      · simp [hcd, hu]
  · intro deployConf dOk hOk cCli diff qcOpt recommended ts
    simp [controllerRun]
  · intro sOk dc hOk cCli diff qcOpt recommended c hc ts
    cases sOk with
    | false => simp [controllerRun]
    | true =>
      simp only [controllerRun, Bool.not_true, Bool.false_eq_true, if_false]
      simp [hc]
  · intro cmd hUrl hOk diff merged c hc
    simp [legacyRun, hc]
  · intro cmd hUrl hOk diff merged hd hm
    simp [legacyRun, hd, hm]

/-- Witness for C5 (amended): concrete aborts in the controller — a failed
health check, failed services, a failed deploy hook — and the legacy
behaviors at concrete inputs. -/
theorem c5_preparation_gating_witness :
    (controllerRun true (some ⟨none, some "http://h"⟩) true false true "d"
      none [sampleTest] ≠ .executed [sampleTest]) ∧
    (controllerRun false none true true true "d" none [sampleTest] ≠
      .executed [sampleTest]) ∧
    (controllerRun true (some ⟨some "./deploy.sh", none⟩) false true true "d"
      none [sampleTest] ≠ .executed [sampleTest]) ∧
    legacyRun (some "./deploy.sh") false none true "d" [sampleTest] =
      .abortedDeploy ∧
    legacyRun (some "./deploy.sh") true (some "http://h") false "d"
      [sampleTest] = .executed [sampleTest] := by
  have h := c5_preparation_gating
  refine ⟨h.1 true ⟨none, some "http://h"⟩ true true "d" none [sampleTest]
      "http://h" rfl [sampleTest],
    h.2.1 none true true true "d" none [sampleTest] [sampleTest],
    h.2.2.1 true ⟨some "./deploy.sh", none⟩ true true "d" none [sampleTest]
      "./deploy.sh" rfl [sampleTest],
    h.2.2.2.1 (some "./deploy.sh") none true "d" [sampleTest] "./deploy.sh" rfl,
    h.2.2.2.2 (some "./deploy.sh") (some "http://h") false "d" [sampleTest]
      (by decide) (by decide)⟩

/-- Claim C7: the readiness backoff starts at 0.5s, multiplies by 1.5 per
failed attempt and is capped at 5s, so the delay sequence is
non-decreasing and never exceeds the cap; a probe succeeding on the 3rd
attempt completes the poll successfully; the loop runs under the hard 60s
ceiling (once the elapsed waiting reaches it the provider gives up); and
a container that stops running mid-poll fails the provider immediately
instead of waiting out the timeout. -/
theorem c7_readiness_backoff :
    (∀ n, 1 / 2 ≤ backoffDelay n ∧ backoffDelay n ≤ 5) ∧
    (∀ n, backoffDelay n ≤ backoffDelay (n + 1)) ∧
    pollLoop (fun _ => true) probeThird 10 0 (1 / 2) 0 = .ready 3 ∧
    (∀ (running : Nat → Bool) (probe : Nat → ProbeResult) (fuel : Nat)
      (elapsed delay : ℚ) (attempt : Nat), maxWait ≤ elapsed →
      pollLoop running probe (fuel + 1) elapsed delay attempt = .timedOut) ∧
    (∀ (running : Nat → Bool) (probe : Nat → ProbeResult) (fuel : Nat)
      (elapsed delay : ℚ) (attempt : Nat), elapsed < maxWait →
      running attempt = false →
      pollLoop running probe (fuel + 1) elapsed delay attempt =
        .containerDied attempt) := by
  have hbounds : ∀ n, 1 / 2 ≤ backoffDelay n ∧ backoffDelay n ≤ 5 := by
    intro n
    induction n with
    | zero => constructor <;> norm_num [backoffDelay]
    | succ m ih =>
      obtain ⟨hlo, hhi⟩ := ih
      constructor
      · rw [backoffDelay]
        refine le_min ?_ (by norm_num)
        nlinarith
      · rw [backoffDelay]
        exact min_le_right _ _
  refine ⟨hbounds, ?_, ?_, ?_, ?_⟩
  · intro n
    obtain ⟨hlo, hhi⟩ := hbounds n
    conv_rhs => rw [backoffDelay]
    refine le_min ?_ hhi
    nlinarith
  · norm_num [pollLoop, maxWait, probeThird, min_def]
  · intro running probe fuel elapsed delay attempt h
    rw [pollLoop, if_neg (not_lt.mpr h)]
  · intro running probe fuel elapsed delay attempt h hdead
    rw [pollLoop, if_pos h, hdead]
    rfl

/-- Witness for C7: the hypothesis-bearing clauses at concrete inputs —
the bound and monotonicity at n = 0, the ceiling at elapsed = 60, the
fail-fast with a container that is already stopped. -/
theorem c7_readiness_backoff_witness :
    (1 / 2 ≤ backoffDelay 0 ∧ backoffDelay 0 ≤ 5) ∧
    backoffDelay 0 ≤ backoffDelay 1 ∧
    pollLoop (fun _ => true) probeThird 3 60 (1 / 2) 0 = .timedOut ∧
    pollLoop (fun _ => false) probeThird 3 0 (1 / 2) 0 = .containerDied 0 := by
  have h := c7_readiness_backoff
  exact ⟨h.1 0, h.2.1 0,
    h.2.2.2.1 (fun _ => true) probeThird 2 60 (1 / 2) 0 (by norm_num [maxWait]),
    h.2.2.2.2 (fun _ => false) probeThird 2 0 (1 / 2) 0
      (by norm_num [maxWait]) rfl⟩

/-- Counterexample to claim C9: a raw `"opened"` file event on a
non-directory, non-ignored path, with far more than 2s elapsed since the
last trigger, invokes no callback — the handler additionally discards
every event whose type is not created/modified/deleted/moved, a filter
the claim omits. -/
theorem c9_counterexample :
    onAnyEvent ⟨0⟩ 100 ⟨"src/main.py", false, "opened"⟩ = (false, ⟨0⟩) ∧
    ignoreHit "src/main.py" = false ∧
    debounceSeconds < (100 : ℚ) - (0 : ℚ) := by
  refine ⟨?_, by decide, by norm_num [debounceSeconds]⟩
  have : ("opened" ∈ allowedEventTypes) = False := by simp [allowedEventTypes]
  simp [onAnyEvent, this]

/-- Claim C9 (amended): directory events, events on an ignore-list path,
and events whose type is not created/modified/deleted/moved trigger no
callback and leave the timer alone; any other event triggers the callback
exactly once precisely when strictly more than the 2s debounce window has
elapsed since the last trigger, resetting the timer; hence two change
events 0.5s apart trigger exactly once and two events 3s apart trigger
twice. -/
theorem c9_watcher_debounce :
    (∀ (st : HandlerState) (now : ℚ) (e : FsEvent), e.is_directory = true →
      onAnyEvent st now e = (false, st)) ∧
    (∀ (st : HandlerState) (now : ℚ) (e : FsEvent), ignoreHit e.src_path = true →
      onAnyEvent st now e = (false, st)) ∧
    (∀ (st : HandlerState) (now : ℚ) (e : FsEvent),
      e.event_type ∉ allowedEventTypes → onAnyEvent st now e = (false, st)) ∧
    (∀ (st : HandlerState) (now : ℚ) (e : FsEvent), e.is_directory = false →
      e.event_type ∈ allowedEventTypes → ignoreHit e.src_path = false →
      (debounceSeconds < now - st.last_triggered →
        onAnyEvent st now e = (true, ⟨now⟩)) ∧
      (¬ debounceSeconds < now - st.last_triggered →
        onAnyEvent st now e = (false, st))) ∧
    ((onAnyEvent ⟨0⟩ 100 modEvent).1 = true ∧
      (onAnyEvent (onAnyEvent ⟨0⟩ 100 modEvent).2 (201 / 2) modEvent).1 = false) ∧
    ((onAnyEvent ⟨0⟩ 100 modEvent).1 = true ∧
      (onAnyEvent (onAnyEvent ⟨0⟩ 100 modEvent).2 103 modEvent).1 = true) := by
  have hig : ignoreHit "src/main.py" = false := by decide
  have hmem : "modified" ∈ allowedEventTypes := by decide
  have hfirst : onAnyEvent ⟨0⟩ 100 modEvent = (true, ⟨100⟩) := by
    simp [onAnyEvent, processEvent, modEvent, hig, hmem]
    norm_num [debounceSeconds]
  refine ⟨?_, ?_, ?_, ?_, ?_, ?_⟩
  · intro st now e hd
    simp [onAnyEvent, hd]
  · intro st now e hi
    by_cases hd : e.is_directory
    · simp [onAnyEvent, hd]
    · simp [onAnyEvent, processEvent, hd, hi]
  · intro st now e hm
    by_cases hd : e.is_directory
    · simp [onAnyEvent, hd]
    · simp [onAnyEvent, hd, hm]
  · intro st now e hd hm hi
    constructor
    · intro hq
      simp [onAnyEvent, processEvent, hd, hm, hi, hq]
    · intro hq
      simp [onAnyEvent, processEvent, hd, hm, hi, hq]
  · refine ⟨by rw [hfirst], ?_⟩
    rw [hfirst]
    simp [onAnyEvent, processEvent, modEvent, hig, hmem]
    norm_num [debounceSeconds]
  · refine ⟨by rw [hfirst], ?_⟩
    rw [hfirst]
    simp [onAnyEvent, processEvent, modEvent, hig, hmem]
    norm_num [debounceSeconds]

/-- Witness for C9 (amended): the hypothesis-bearing clauses at concrete
events — a directory event, an ignored `node_modules` path, a
non-allowed `"opened"` event type, and a fresh modification both inside
and outside the debounce window. -/
theorem c9_watcher_debounce_witness :
    onAnyEvent ⟨0⟩ 100 ⟨"src", true, "modified"⟩ = (false, ⟨0⟩) ∧
    onAnyEvent ⟨0⟩ 100 ⟨"a/node_modules/b.js", false, "modified"⟩ = (false, ⟨0⟩) ∧
    onAnyEvent ⟨0⟩ 100 ⟨"src/main.py", false, "opened"⟩ = (false, ⟨0⟩) ∧
    onAnyEvent ⟨0⟩ 100 modEvent = (true, ⟨100⟩) ∧
    onAnyEvent ⟨100⟩ (201 / 2) modEvent = (false, ⟨100⟩) := by
  have h := c9_watcher_debounce
  have hmain := h.2.2.2.1 ⟨0⟩ 100 modEvent rfl (by decide) (by decide)
  have hmain2 := h.2.2.2.1 ⟨100⟩ (201 / 2) modEvent rfl (by decide) (by decide)
  exact ⟨h.1 ⟨0⟩ 100 ⟨"src", true, "modified"⟩ rfl,
    h.2.1 ⟨0⟩ 100 ⟨"a/node_modules/b.js", false, "modified"⟩ (by decide),
    h.2.2.1 ⟨0⟩ 100 ⟨"src/main.py", false, "opened"⟩ (by decide),
    hmain.1 (by norm_num [debounceSeconds]),
    hmain2.2 (by norm_num [debounceSeconds])⟩

/-! ## Merge-loop lemmas for the analysis de-duplication -/

theorem addTests_acc (ts : List TestDescriptor) :
    ∀ seen acc, addTests (seen, acc) ts =
      ((addTests (seen, []) ts).1, acc ++ (addTests (seen, []) ts).2) := by
  induction ts with
  | nil => intro seen acc; simp [addTests]
  | cons t ts ih =>
    intro seen acc
    by_cases h : testKey t ∈ seen
    · simp only [addTests, if_pos h]
      exact ih seen acc
    · simp only [addTests, if_neg h]
      rw [ih (testKey t :: seen) (acc ++ [t]), ih (testKey t :: seen) ([] ++ [t])]
      simp

theorem addTests_append (xs ys : List TestDescriptor) :
    ∀ st, addTests st (xs ++ ys) = addTests (addTests st xs) ys := by
  induction xs with
  | nil =>
    intro st
    obtain ⟨seen, acc⟩ := st
    simp [addTests]
  | cons t xs ih =>
    intro st
    obtain ⟨seen, acc⟩ := st
    by_cases h : testKey t ∈ seen
    · simp only [List.cons_append, addTests, if_pos h]
      exact ih _
    · simp only [List.cons_append, addTests, if_neg h]
      exact ih _

theorem addTests_seen_mem (ts : List TestDescriptor) :
    ∀ seen acc k, k ∈ (addTests (seen, acc) ts).1 ↔
      k ∈ seen ∨ k ∈ ts.map testKey := by
  induction ts with
  | nil => intro seen acc k; simp [addTests]
  | cons t ts ih =>
    intro seen acc k
    by_cases h : testKey t ∈ seen
    · rw [show addTests (seen, acc) (t :: ts) = addTests (seen, acc) ts from by
        simp only [addTests, if_pos h], ih]
      simp only [List.map_cons, List.mem_cons]
      constructor
      · rintro (hk | hk)
        · exact Or.inl hk
        · exact Or.inr (Or.inr hk)
      · rintro (hk | hk | hk)
        · exact Or.inl hk
        · exact Or.inl (hk ▸ h)
        · exact Or.inr hk
    · rw [show addTests (seen, acc) (t :: ts) =
          addTests (testKey t :: seen, acc ++ [t]) ts from by
        simp only [addTests, if_neg h], ih]
      simp only [List.mem_cons, List.map_cons]
      tauto

theorem addTests_fixed (ts : List TestDescriptor) :
    ∀ seen acc, (∀ t ∈ ts, testKey t ∈ seen) →
      addTests (seen, acc) ts = (seen, acc) := by
  induction ts with
  | nil => intro seen acc _; rfl
  | cons t ts ih =>
    intro seen acc h
    have ht : testKey t ∈ seen := h t (by simp)
    simp only [addTests, if_pos ht]
    exact ih seen acc (fun u hu => h u (by simp [hu]))

theorem addTests_sublist (ts : List TestDescriptor) :
    ∀ seen, ((addTests (seen, []) ts).2).Sublist ts := by
  induction ts with
  | nil => intro seen; simp [addTests]
  | cons t ts ih =>
    intro seen
    by_cases h : testKey t ∈ seen
    · simp only [addTests, if_pos h]
      exact (ih seen).cons t
    · simp only [addTests, if_neg h]
      rw [addTests_acc]
      simpa using (ih (testKey t :: seen)).cons₂ t

theorem addTests_nodup (ts : List TestDescriptor) :
    ∀ seen acc, (acc.map testKey).Nodup → (∀ k ∈ acc.map testKey, k ∈ seen) →
      (((addTests (seen, acc) ts).2).map testKey).Nodup := by
  induction ts with
  | nil => intro seen acc h1 _; exact h1
  | cons t ts ih =>
    intro seen acc h1 h2
    by_cases h : testKey t ∈ seen
    · simp only [addTests, if_pos h]
      exact ih seen acc h1 h2
    · simp only [addTests, if_neg h]
      apply ih
      · rw [List.map_append]
        refine List.Nodup.append h1 (by simp) ?_
        intro a ha hb
        simp only [List.map_cons, List.map_nil, List.mem_singleton] at hb
        exact h (hb ▸ h2 a ha)
      · intro k hk
        rw [List.map_append] at hk
        rcases List.mem_append.mp hk with hk | hk
        · exact List.mem_cons_of_mem _ (h2 k hk)
        · simp only [List.map_cons, List.map_nil, List.mem_singleton] at hk
          exact hk ▸ List.mem_cons_self _ _

theorem addTests_seen_to_acc (ts : List TestDescriptor) :
    ∀ seen acc, (∀ k ∈ seen, k ∈ acc.map testKey) →
      ∀ k ∈ (addTests (seen, acc) ts).1,
        k ∈ ((addTests (seen, acc) ts).2).map testKey := by
  induction ts with
  | nil => intro seen acc h; exact h
  | cons t ts ih =>
    intro seen acc h
    by_cases ht : testKey t ∈ seen
    · simp only [addTests, if_pos ht]
      exact ih seen acc h
    · simp only [addTests, if_neg ht]
      apply ih
      intro k hk
      rw [List.map_append]
      rcases List.mem_cons.mp hk with he | he
      · subst he
        simp
      · exact List.mem_append_left _ (h k he)

theorem addTests_keeps_first (ts1 : List TestDescriptor) :
    ∀ (t : TestDescriptor) (ts2 : List TestDescriptor) seen acc,
      testKey t ∉ seen → testKey t ∉ ts1.map testKey →
      t ∈ (addTests (seen, acc) (ts1 ++ t :: ts2)).2 := by
  induction ts1 with
  | nil =>
    intro t ts2 seen acc hs _
    simp only [List.nil_append, addTests, if_neg hs]
    rw [addTests_acc]
    simp
  | cons u ts1 ih =>
    intro t ts2 seen acc hs h1
    simp only [List.map_cons, List.mem_cons] at h1
    push_neg at h1
    by_cases hu : testKey u ∈ seen
    · simp only [List.cons_append, addTests, if_pos hu]
      exact ih t ts2 seen acc hs h1.2
    · simp only [List.cons_append, addTests, if_neg hu]
      refine ih t ts2 _ _ ?_ h1.2
      intro hmem
      rcases List.mem_cons.mp hmem with he | he
      · exact h1.1 he
      · exact hs he

theorem foldl_addTests (planner : String → List TestDescriptor)
    (strats : List String) :
    ∀ st, strats.foldl (fun st s => addTests st (planner s)) st =
      addTests st ((strats.map planner).flatten) := by
  induction strats with
  | nil =>
    intro st
    obtain ⟨seen, acc⟩ := st
    simp [addTests]
  | cons s strats ih =>
    intro st
    simp only [List.foldl_cons, List.map_cons, List.flatten_cons]
    rw [ih, addTests_append]

theorem mergedTests_eq_addTests (planner : String → List TestDescriptor)
    (configTests : List TestDescriptor) (strategy : String) :
    mergedTests planner configTests strategy =
      (addTests ([], []) (allCandidates planner configTests strategy)).2 := by
  rw [mergedTests, allCandidates, addTests_append, foldl_addTests]

/-- Counterexample to claim C8: the merge loop de-duplicates by the
four-tuple `(type, label, path, command)`, not by
`(kind, label, commandOrPath)`: two descriptors carrying the same target
string under different dict keys (`path` vs `command`) share the
spec-named key yet are both kept, so the output is not de-duplicated by
`(kind, label, commandOrPath)`. -/
theorem c8_counterexample :
    specDedupKey dupPathTest = specDedupKey dupCmdTest ∧
    dupPathTest ≠ dupCmdTest ∧
    mergedTests dupPlanner [] "a" = [dupPathTest, dupCmdTest] ∧
    ¬ ((mergedTests dupPlanner [] "a").map specDedupKey).Nodup := by
  decide

/-- Claim C8 (amended): Analysis merging is idempotent in repeated
strategy labels — strategy `"a,a"` yields the same merged list as `"a"` —
and for every strategy string the merged list de-duplicates the
concatenated planner/config candidates by the
`(type, label, path, command)` key (path and command compared as separate
dict keys), preserving first-seen order: the result is a subsequence of
the candidates, its keys are pairwise distinct, every candidate's key is
represented, and the first occurrence of each key is the one kept. -/
theorem c8_analysis_dedup (planner : String → List TestDescriptor)
    (configTests : List TestDescriptor) :
    mergedTests planner configTests "a,a" = mergedTests planner configTests "a" ∧
    (∀ strategy, (mergedTests planner configTests strategy).Sublist
      (allCandidates planner configTests strategy)) ∧
    (∀ strategy, ((mergedTests planner configTests strategy).map testKey).Nodup) ∧
    (∀ strategy t, t ∈ allCandidates planner configTests strategy →
      testKey t ∈ (mergedTests planner configTests strategy).map testKey) ∧
    (∀ strategy ts1 t ts2,
      allCandidates planner configTests strategy = ts1 ++ t :: ts2 →
      testKey t ∉ ts1.map testKey →
      t ∈ mergedTests planner configTests strategy) := by
  refine ⟨?_, ?_, ?_, ?_, ?_⟩
  · have h2 : splitStrategies "a,a" = ["a", "a"] := by decide
    have h1 : splitStrategies "a" = ["a"] := by decide
    rw [mergedTests_eq_addTests, mergedTests_eq_addTests, allCandidates,
      allCandidates, h1, h2]
    simp only [List.map_cons, List.map_nil, List.flatten_cons, List.flatten_nil,
      List.append_nil]
    rw [List.append_assoc, addTests_append, addTests_append, addTests_append]
    congr 2
    rcases hst : addTests ([], []) (planner "a") with ⟨seen1, acc1⟩
    refine addTests_fixed (planner "a") seen1 acc1 ?_
    intro t ht
    have := (addTests_seen_mem (planner "a") [] [] (testKey t)).mpr
      (Or.inr (List.mem_map_of_mem testKey ht))
    rw [hst] at this
    exact this
  · intro strategy
    rw [mergedTests_eq_addTests]
    exact addTests_sublist _ []
  · intro strategy
    rw [mergedTests_eq_addTests]
    exact addTests_nodup _ [] [] (by simp) (by simp)
  · intro strategy t ht
    rw [mergedTests_eq_addTests]
    refine addTests_seen_to_acc _ [] [] (by simp) _ ?_
    exact (addTests_seen_mem _ [] [] (testKey t)).mpr
      (Or.inr (List.mem_map_of_mem testKey ht))
  · intro strategy ts1 t ts2 hall h1
    rw [mergedTests_eq_addTests, hall]
    exact addTests_keeps_first ts1 t ts2 [] [] (by simp) h1

/-- Witness for C8 (amended): the completeness and first-occurrence
clauses at the concrete duplicate-key planner. -/
theorem c8_analysis_dedup_witness :
    testKey dupPathTest ∈ (mergedTests dupPlanner [] "a").map testKey ∧
    dupPathTest ∈ mergedTests dupPlanner [] "a" := by
  have h := c8_analysis_dedup dupPlanner []
  exact ⟨h.2.2.2.1 "a" dupPathTest (by decide),
    h.2.2.2.2 "a" [] dupPathTest [dupCmdTest] (by decide) (by simp)⟩

end AetherLens

